import Mathlib

/-!
Verification of the status-history inference, point normalization,
aggregation and velocity-projection logic of the jira-utils scripts.

Shallow embedding conventions:
* JS numbers are modelled as `ℚ` (the scripts only add, divide and round
  exact decimal values).
* `Math.round x` is `⌊x + 1/2⌋` (half up, JS semantics), written `jsRound`.
* Rounding to d decimals, `Math.round (x * 10^d) / 10^d`, is `round2`/`round1`.
* JS division producing NaN/Infinity on a zero denominator is modelled by
  `jsDiv : ℚ → ℚ → Option ℚ` returning `none` for a zero denominator.
* ISO timestamp strings "YYYY-MM-DDTHH:MM:SS" are modelled by `Timestamp`
  (a calendar-day number plus a time-of-day number, ordered
  lexicographically); `s.split('T')[0]` is the `day` projection, and
  `new Date` comparisons on such strings coincide with this order.
* A numeric field that may be absent is `Option ℚ`; the JS falsy default
  `fields[x] || d` maps both absence and 0 to the default.
* `Array.prototype.sort` (stable since ES2019) with the comparator
  `(a, b) => b.totalPoints - a.totalPoints` produces the unique stable
  descending order, modelled by `List.insertionSort` with the non-strict
  relation "left bucket has at least as many points".
* A per-issue detail fetch that may throw is an `Option` input element:
  `none` is an issue whose fetch threw and was caught.
-/

/-- JS `Math.round`: nearest integer, half rounded up (toward +infinity). -/
def jsRound (x : ℚ) : ℤ := ⌊x + 1/2⌋

/-- `Math.round (x * 100) / 100`: round to 2 decimal places. -/
def round2 (x : ℚ) : ℚ := (jsRound (x * 100) : ℚ) / 100

/-- `Math.round (x * 10) / 10`: round to 1 decimal place. -/
def round1 (x : ℚ) : ℚ := (jsRound (x * 10) : ℚ) / 10

/-- JS division; `none` models the NaN/Infinity produced on a zero denominator. -/
def jsDiv (a b : ℚ) : Option ℚ := if b = 0 then none else some (a / b)

/-- `Array.prototype.reduce((a, b) => a + b, 0)`. -/
def sumQ (l : List ℚ) : ℚ := l.foldl (· + ·) 0

/-- An ISO timestamp: calendar day (`split('T')[0]`) and time of day.
`new Date` comparisons on ISO strings coincide with the lexicographic
order on `(day, tod)`. -/
structure Timestamp where
  day : ℤ
  tod : ℤ
deriving DecidableEq, Repr

/-- `new Date(a) <= new Date(b)` for full ISO timestamps. -/
def Timestamp.le (a b : Timestamp) : Bool :=
  a.day < b.day || (a.day == b.day && a.tod ≤ b.tod)

/- ===== Changelog history model =====
JIRA changelog histories as consumed by the resolvers. The data model of
the spec (section 3) declares the history sequence ordered by occurrence
(chronological). -/

/-- One change item of a changelog history entry (only the fields the
scripts consult). `toString`/`toId` are the new-value label and the id
(named `to` in the source, which is a reserved word in Lean). -/
structure ChangeItem where
  field : String
  fieldId : Option String
  toString : Option String
  toId : Option String
deriving DecidableEq, Repr

/-- One changelog history entry: creation timestamp and change items. -/
structure History where
  created : Timestamp
  items : List ChangeItem
deriving DecidableEq, Repr

/-- ASCII uppercase: structurally reducible model of JS `toUpperCase`
(the compared labels are ASCII). -/
def asciiUpper (s : String) : String := ⟨s.data.map Char.toUpper⟩

/-- ASCII lowercase: structurally reducible model of JS `toLowerCase`. -/
def asciiLower (s : String) : String := ⟨s.data.map Char.toLower⟩

/-- JS `hay.includes(needle)`. -/
def strContains (hay needle : String) : Bool :=
  hay.data.tails.any (fun t => needle.data.isPrefixOf t)

/-- The completed-status list of `getCompletionDate`
(generate-issues-currently-in-qa.js line 426). -/
def completedStatusesQA : List String :=
  ["READY FOR RELEASE", "CLOSED", "DONE", "COMPLETED"]

/-- The item test of `getCompletionDate` (lines 431-435):
`item.field === "status" && completedStatuses.some(s =>
s === item.toString?.toUpperCase() || s === item.to)`. -/
def completionItem (i : ChangeItem) : Bool :=
  i.field == "status" &&
    completedStatusesQA.any
      (fun s => i.toString.map asciiUpper == some s || i.toId == some s)

/-- History-entry test of `getCompletionDate`: some item matches. -/
def qCompletion (h : History) : Bool := h.items.any completionItem

/-- `getCompletionDate` (generate-issues-currently-in-qa.js lines 421-446):
scans histories from the last entry backwards and returns the day of the
first entry found with a status change into a completed status
(i.e. the last such entry in history order); when none is found but the
current status is already completed, falls back to the updated day. -/
def getCompletionDate (changelog : Option (List History))
    (statusName : String) (updated : Option Timestamp) : Option ℤ :=
  match changelog with
  | none => none
  | some hs =>
    match hs.reverse.find? qCompletion with
    | some h => some h.created.day
    | none =>
      if completedStatusesQA.contains (asciiUpper statusName) then
        updated.map Timestamp.day
      else none

/-- The item test of `analyzeSprintAddition` (lines 799-804):
a Sprint-field change whose new value contains the sprint name. -/
def sprintItemMatches (sprintFieldId sprintName : String) (i : ChangeItem) : Bool :=
  (i.field == "Sprint" || i.fieldId == some sprintFieldId) &&
    strContains (i.toString.getD "") sprintName

/-- History-entry test of `analyzeSprintAddition`: some item matches. -/
def qSprint (sprintFieldId sprintName : String) (h : History) : Bool :=
  h.items.any (sprintItemMatches sprintFieldId sprintName)

/-- `analyzeSprintAddition` (generate-issues-currently-in-qa.js lines
792-810): scans histories in order and returns the created timestamp of
the first entry adding the sprint; falls back to the creation date. -/
def analyzeSprintAddition (changelog : Option (List History))
    (sprintFieldId sprintName : String) (createdDate : Timestamp) : Timestamp :=
  match changelog with
  | none => createdDate
  | some hs =>
    match hs.find? (qSprint sprintFieldId sprintName) with
    | some h => h.created
    | none => createdDate

/-- The item test of `getStatusChangeDate`
(get-jira-completed-points.js lines 120-126): a status change whose
new-value label case-insensitively equals a target status. -/
def statusItemMatches (targetStatuses : List String) (i : ChangeItem) : Bool :=
  i.field == "status" &&
    (match i.toString with
     | none => false
     | some s => s != "" && targetStatuses.any (fun t => asciiUpper s == asciiUpper t))

/-- History-entry test of `getStatusChangeDate`: entry day inside the
inclusive date range and some item matches. -/
def qStatusWindow (targetStatuses : List String) (startDate endDate : ℤ)
    (h : History) : Bool :=
  (decide (startDate ≤ h.created.day) && decide (h.created.day ≤ endDate))
    && h.items.any (statusItemMatches targetStatuses)

/-- `getStatusChangeDate` (get-jira-completed-points.js lines 105-131):
scans histories in their given order and returns the day of the first
entry inside the date range with a status change into a target status. -/
def getStatusChangeDate (changelog : Option (List History))
    (targetStatuses : List String) (startDate endDate : ℤ) : Option ℤ :=
  match changelog with
  | none => none
  | some hs =>
    match hs.find? (qStatusWindow targetStatuses startDate endDate) with
    | some h => some h.created.day
    | none => none

/- ===== Point Normalizer =====
generate-dev-review-by-assignee.js lines 111-118 (the same normalization,
minus the defaulted flag, appears in src/unnamed/part_008 lines 98-110):
  let storyPoints = fields[fieldIds.storyPoints] || 0;
  let defaulted = false;
  if ((issueType === "Story" || issueType === "Bug") && storyPoints === 0) {
    storyPoints = 2;
    defaulted = true;
  } -/

/-- Per-issue point normalization from the fetch loop of
generate-dev-review-by-assignee.js (lines 111-118): raw story-point field
(`none` = absent) and issue-type name, returning (points, defaulted). -/
def normalizeIssuePoints (raw : Option ℚ) (issueType : String) : ℚ × Bool :=
  let storyPoints := raw.getD 0
  if (issueType = "Story" ∨ issueType = "Bug") ∧ storyPoints = 0 then
    (2, true)
  else
    (storyPoints, false)

/- ===== Scope-change aggregation =====
generate-issues-currently-in-qa.js lines 841-912 (calculateScopeChanges). -/

/-- A story-point change record from `analyzeStoryPointChanges`; the
string round-trip `parseFloat(x || "0") || 0` of the source is modelled
by carrying the parsed numeric values. -/
structure SPChange where
  date : Timestamp
  fromPts : ℚ
  toPts : ℚ
  author : String
deriving DecidableEq, Repr

/-- A normalized sprint issue as built by the fetch loop of
generate-issues-currently-in-qa.js (lines 764-774). -/
structure SIssue where
  key : String
  summary : String
  issueType : String
  status : String
  storyPoints : ℚ
  addedToSprint : Timestamp
  storyPointHistory : List SPChange
deriving DecidableEq, Repr

/-- `list.reduce((sum, issue) => sum + issue.storyPoints, 0)`. -/
def pointsSum (l : List SIssue) : ℚ := l.foldl (fun s i => s + i.storyPoints) 0

/-- The story-point increases of one issue counted by
`calculateScopeChanges` (lines 859-881): changes on or after sprint start
with a positive delta. -/
def scopeIncreases (sprintStart : Timestamp) (i : SIssue) : List ℚ :=
  (i.storyPointHistory.filter
      (fun c => Timestamp.le sprintStart c.date && decide (0 < c.toPts - c.fromPts))).map
    (fun c => c.toPts - c.fromPts)

/-- The completed-status test of `calculateScopeChanges` (lines 889-896). -/
def isCompletedStatus (s : String) : Bool :=
  s == "READY FOR RELEASE" || s == "CLOSED"

structure ScopeResult where
  initialScope : List SIssue
  initialPoints : ℚ
  addedScope : List SIssue
  addedPoints : ℚ
  increasedPoints : ℚ
  totalCurrentPoints : ℚ
  completedIssues : List SIssue
  completedPoints : ℚ
  remainingIssues : List SIssue
  remainingPoints : ℚ
deriving Repr

/-- `calculateScopeChanges` (generate-issues-currently-in-qa.js lines
841-912): partitions the sprint issues into initial vs added scope by the
sprint-addition date, and into completed vs remaining by status, summing
points per bucket. -/
def calculateScopeChanges (issues : List SIssue) (sprintStart : Timestamp) :
    ScopeResult :=
  let initialScope := issues.filter (fun i => Timestamp.le i.addedToSprint sprintStart)
  let addedScope := issues.filter (fun i => !(Timestamp.le i.addedToSprint sprintStart))
  let initialPoints := pointsSum initialScope
  let addedPoints := pointsSum addedScope
  let increasedPoints := sumQ (issues.flatMap (scopeIncreases sprintStart))
  let completedIssues := issues.filter (fun i => isCompletedStatus i.status)
  let remainingIssues := issues.filter (fun i => !(isCompletedStatus i.status))
  { initialScope := initialScope
    initialPoints := initialPoints
    addedScope := addedScope
    addedPoints := addedPoints
    increasedPoints := increasedPoints
    totalCurrentPoints := initialPoints + addedPoints + increasedPoints
    completedIssues := completedIssues
    completedPoints := pointsSum completedIssues
    remainingIssues := remainingIssues
    remainingPoints := pointsSum remainingIssues }

/- ===== Assignee allocation aggregation =====
src/unnamed/part_008 (fetchSprintAllocation, lines 65-157). -/

/-- A fetched sprint issue as consumed by `fetchSprintAllocation`. -/
structure AllocIssue where
  key : String
  assigneeName : String
  accountId : String
  storyPoints : Option ℚ
  issueType : String
  status : String
deriving DecidableEq, Repr

/-- part_008 line 13: statuses counted as completed (case-sensitive). -/
def completedStatusesAlloc : List String :=
  ["Ready for release", "CLOSED", "Closed", "Done"]

/-- Running totals per assignee (the `assigneeMap` values). -/
structure AllocStats where
  name : String
  accountId : String
  totalIssues : ℕ
  totalPoints : ℚ
  completedIssues : ℕ
  completedPoints : ℚ
deriving DecidableEq, Repr

/-- Point normalization of part_008 (lines 98-110): `fields[f] || 0`,
then default 2 for a Story or Bug with 0 points. -/
def allocPoints (i : AllocIssue) : ℚ :=
  let sp := i.storyPoints.getD 0
  if (i.issueType = "Story" ∨ i.issueType = "Bug") ∧ sp = 0 then 2 else sp

/-- Type filter of part_008 (lines 102-105): only Epic, Story and Bug
are counted. -/
def allocCounted (i : AllocIssue) : Bool :=
  i.issueType == "Epic" || i.issueType == "Story" || i.issueType == "Bug"

/-- Adding one counted issue to an assignee entry (lines 127-134). -/
def allocAdd (s : AllocStats) (i : AllocIssue) : AllocStats :=
  let sp := allocPoints i
  let isCompleted := completedStatusesAlloc.contains i.status
  { s with
    totalIssues := s.totalIssues + 1
    totalPoints := s.totalPoints + sp
    completedIssues := if isCompleted then s.completedIssues + 1 else s.completedIssues
    completedPoints := if isCompleted then s.completedPoints + sp else s.completedPoints }

/-- `assigneeMap` update: JS object insertion keeps the position of an
existing key and appends a new key (lines 115-134). -/
def allocUpsert : List AllocStats → AllocIssue → List AllocStats
  | [], i => [allocAdd ⟨i.assigneeName, i.accountId, 0, 0, 0, 0⟩ i]
  | s :: rest, i =>
    if s.accountId = i.accountId then allocAdd s i :: rest
    else s :: allocUpsert rest i

/-- One loop iteration of `fetchSprintAllocation`; a `none` input models
an issue whose detail fetch threw and was skipped with a warning
(lines 136-138). -/
def allocStep (m : List AllocStats) (oi : Option AllocIssue) : List AllocStats :=
  match oi with
  | none => m
  | some i => if allocCounted i then allocUpsert m i else m

/-- The zero-guarded percentage used by part_008
(lines 144-146 and line 237):
`total > 0 ? Math.round(completed / total * 100) : 0`. -/
def pctOfTotal (completedPoints totalPoints : ℚ) : ℤ :=
  if 0 < totalPoints then jsRound (completedPoints / totalPoints * 100) else 0

/-- An assignee bucket after the percentage pass (lines 142-147). -/
structure AllocBucket where
  stats : AllocStats
  percentComplete : ℤ
deriving DecidableEq, Repr

/-- Comparator order of `.sort((a, b) => b.totalPoints - a.totalPoints)`:
the left bucket has at least the points of the right one. -/
def relAllocDesc : AllocBucket → AllocBucket → Prop :=
  fun a b => b.stats.totalPoints ≤ a.stats.totalPoints

instance : DecidableRel relAllocDesc :=
  fun a b => inferInstanceAs (Decidable (b.stats.totalPoints ≤ a.stats.totalPoints))

instance : IsTotal AllocBucket relAllocDesc :=
  ⟨fun a b => by exact le_total b.stats.totalPoints a.stats.totalPoints⟩

instance : IsTrans AllocBucket relAllocDesc :=
  ⟨fun _ _ _ hab hbc => by exact le_trans hbc hab⟩

/-- `fetchSprintAllocation` (part_008 lines 65-157) after the fetches:
fold the issues into the assignee map, attach the zero-guarded completion
percentage, and stable-sort by descending total points. -/
def fetchSprintAllocation (issues : List (Option AllocIssue)) : List AllocBucket :=
  let m := issues.foldl allocStep []
  let withPct := m.map (fun s => AllocBucket.mk s (pctOfTotal s.completedPoints s.totalPoints))
  List.insertionSort relAllocDesc withPct

/- ===== Dev/review grouping by assignee =====
generate-dev-review-by-assignee.js lines 151-189 (groupByAssignee). -/

/-- A normalized issue as consumed by `groupByAssignee`. -/
structure DevIssue where
  key : String
  assignee : String
  storyPoints : ℚ
  status : String
deriving DecidableEq, Repr

/-- One assignee bucket of `groupByAssignee` (lines 157-182). -/
structure AssigneeBucket where
  name : String
  issueKeys : List String
  totalPoints : ℚ
  inDevCount : ℕ
  inDevPoints : ℚ
  inReviewCount : ℕ
  inReviewPoints : ℚ
deriving DecidableEq, Repr

/-- Adding one issue to an assignee bucket (lines 169-182). -/
def bucketAdd (b : AssigneeBucket) (i : DevIssue) : AssigneeBucket :=
  let statusLower := asciiLower i.status
  let b1 := { b with
    issueKeys := b.issueKeys ++ [i.key]
    totalPoints := b.totalPoints + i.storyPoints }
  if statusLower == "in dev" then
    { b1 with inDevCount := b1.inDevCount + 1, inDevPoints := b1.inDevPoints + i.storyPoints }
  else if statusLower == "in review" || statusLower == "ready for review" then
    { b1 with inReviewCount := b1.inReviewCount + 1, inReviewPoints := b1.inReviewPoints + i.storyPoints }
  else b1

/-- `assigneeMap` update keyed by assignee display name (lines 154-168). -/
def bucketUpsert : List AssigneeBucket → DevIssue → List AssigneeBucket
  | [], i => [bucketAdd ⟨i.assignee, [], 0, 0, 0, 0, 0⟩ i]
  | b :: rest, i =>
    if b.name = i.assignee then bucketAdd b i :: rest
    else b :: bucketUpsert rest i

/-- Comparator order of `.sort((a, b) => b.totalPoints - a.totalPoints)`
(line 186). -/
def relBucketDesc : AssigneeBucket → AssigneeBucket → Prop :=
  fun a b => b.totalPoints ≤ a.totalPoints

instance : DecidableRel relBucketDesc :=
  fun a b => inferInstanceAs (Decidable (b.totalPoints ≤ a.totalPoints))

instance : IsTotal AssigneeBucket relBucketDesc :=
  ⟨fun a b => by exact le_total b.totalPoints a.totalPoints⟩

instance : IsTrans AssigneeBucket relBucketDesc :=
  ⟨fun _ _ _ hab hbc => by exact le_trans hbc hab⟩

/-- `groupByAssignee` (generate-dev-review-by-assignee.js lines 151-189):
group issues into assignee buckets (object insertion order), then
stable-sort by descending total points. -/
def groupByAssignee (issues : List DevIssue) : List AssigneeBucket :=
  List.insertionSort relBucketDesc (issues.foldl bucketUpsert [])

/- ===== Completed story points run =====
get-jira-completed-points.js lines 155-279 (fetchCompletedStoryPoints).
The search returns issue references; each detail fetch may throw, which
is modelled by an `Option` element (none = fetch threw, caught at lines
235-238). -/

/-- A successfully fetched issue detail. -/
structure FetchedIssue where
  key : String
  summary : String
  issueType : String
  storyPoints : Option ℚ
  statusName : String
  changelog : Option (List History)
deriving Repr

/-- One entry of the report `issues` list (lines 225-233). -/
structure ResultRow where
  key : String
  summary : String
  issueType : String
  storyPoints : ℚ
  defaultPointsAssigned : Bool
  statusChangedDate : Option ℤ
  currentStatus : String
deriving Repr

/-- Running totals of the fetch loop (lines 171-180). -/
structure RunTotals where
  totalStoryPoints : ℚ
  issuesWithPoints : ℕ
  issuesWithoutPoints : ℕ
  storyPointsFromStories : ℚ
  storyCount : ℕ
  storyPointsFromBugs : ℚ
  bugCount : ℕ
  results : List ResultRow
  warnings : ℕ
deriving Repr

def emptyTotals : RunTotals := ⟨0, 0, 0, 0, 0, 0, 0, [], 0⟩

/-- The points used for one fetched issue:
`if (!storyPoints || storyPoints === 0) storyPoints = 2` (lines 203-212);
note this script defaults regardless of issue type. -/
def fetchedPoints (iss : FetchedIssue) : ℚ :=
  if iss.storyPoints.getD 0 = 0 then 2 else iss.storyPoints.getD 0

/-- One iteration of the fetch loop (lines 182-239): a thrown detail
fetch records a warning and counts the issue as without points; a
fetched issue is normalized, totalled, broken down by type and appended
to the results. -/
def processIssue (targets : List String) (startD endD : ℤ)
    (acc : RunTotals) (of : Option FetchedIssue) : RunTotals :=
  match of with
  | none =>
    { acc with
      warnings := acc.warnings + 1
      issuesWithoutPoints := acc.issuesWithoutPoints + 1 }
  | some iss =>
    let statusChangeDate := getStatusChangeDate iss.changelog targets startD endD
    let defaulted := iss.storyPoints.getD 0 = 0
    let sp := fetchedPoints iss
    { acc with
      totalStoryPoints := acc.totalStoryPoints + sp
      issuesWithPoints := if iss.storyPoints.getD 0 = 0 then acc.issuesWithPoints else acc.issuesWithPoints + 1
      issuesWithoutPoints := if iss.storyPoints.getD 0 = 0 then acc.issuesWithoutPoints + 1 else acc.issuesWithoutPoints
      storyPointsFromStories := if iss.issueType = "Story" then acc.storyPointsFromStories + sp else acc.storyPointsFromStories
      storyCount := if iss.issueType = "Story" then acc.storyCount + 1 else acc.storyCount
      storyPointsFromBugs := if iss.issueType = "Bug" then acc.storyPointsFromBugs + sp else acc.storyPointsFromBugs
      bugCount := if iss.issueType = "Bug" then acc.bugCount + 1 else acc.bugCount
      results := acc.results ++ [⟨iss.key, iss.summary, iss.issueType, sp,
        decide defaulted, statusChangeDate, iss.statusName⟩] }

/-- The report data of `fetchCompletedStoryPoints`: the loop totals plus
`issueCount: issueData.length` (line 258), the length of the search
result, not of the successfully processed issues. The final
`results.sort` by status-change date does not alter any total and is
omitted. -/
structure RunSummary where
  totals : RunTotals
  issueCount : ℕ
deriving Repr

/-- The aggregation core of `fetchCompletedStoryPoints`
(get-jira-completed-points.js lines 155-279). -/
def fetchCompletedStoryPoints (fetched : List (Option FetchedIssue))
    (targets : List String) (startD endD : ℤ) : RunSummary :=
  ⟨fetched.foldl (processIssue targets startD endD) emptyTotals, fetched.length⟩

/- ===== S-curve distribution =====
generate-sprint-report.js lines 22-67. -/

/-- The precomputed profiles of `distributeSCurve` (lines 26-33). -/
def sCurveProfileTable (workingDays : ℕ) : Option (List ℚ) :=
  if workingDays = 10 then
    some [5/100, 7/100, 10/100, 12/100, 13/100, 13/100, 12/100, 10/100, 7/100, 5/100]
  else if workingDays = 9 then
    some [5/100, 7/100, 11/100, 13/100, 14/100, 14/100, 13/100, 11/100, 7/100]
  else if workingDays = 8 then
    some [6/100, 8/100, 12/100, 14/100, 14/100, 14/100, 12/100, 8/100]
  else if workingDays = 7 then
    some [7/100, 10/100, 13/100, 15/100, 15/100, 13/100, 10/100]
  else if workingDays = 6 then
    some [8/100, 12/100, 15/100, 15/100, 12/100, 8/100]
  else if workingDays = 5 then
    some [10/100, 15/100, 20/100, 15/100, 10/100]
  else none

/-- Monadic map over Option: a NaN (none) anywhere poisons the result,
as NaN propagates through the JS arithmetic. -/
def optMap {α β : Type} (f : α → Option β) : List α → Option (List β)
  | [] => some []
  | a :: as =>
    match f a, optMap f as with
    | some b, some bs => some (b :: bs)
    | _, _ => none

/-- The smoothstep curve of `generateSCurveProfile` (line 60). -/
def smoothstep (t : ℚ) : ℚ := t * t * (3 - 2 * t)

/-- `generateSCurveProfile` (generate-sprint-report.js lines 53-67):
smoothstep values at `t = i/(days-1)` normalized by their sum. For
`days = 1` the parameter is `0/0` (NaN in JS), modelled as `none`. -/
def generateSCurveProfile (days : ℕ) : Option (List ℚ) :=
  match optMap (fun i : ℕ => jsDiv (i : ℚ) ((days : ℚ) - 1)) (List.range days) with
  | none => none
  | some ts =>
    let profile := ts.map smoothstep
    let s := sumQ profile
    optMap (fun v => jsDiv v s) profile

/-- The distribution body of `distributeSCurve` (lines 39-50): round each
day to 2 decimals, then add the rounded residual to the middle day, but
only when its magnitude exceeds 0.01. -/
def distributeFromProfile (totalPoints : ℚ) (workingDays : ℕ)
    (profile : List ℚ) : List ℚ :=
  let distribution := profile.map (fun p => round2 (totalPoints * p))
  let s := sumQ distribution
  let diff := round2 (totalPoints - s)
  if 1/100 < |diff| then
    distribution.set (workingDays / 2) (distribution.getD (workingDays / 2) 0 + diff)
  else distribution

/-- `distributeSCurve` (generate-sprint-report.js lines 22-51): use the
precomputed profile when one exists, else the generated one. -/
def distributeSCurve (totalPoints : ℚ) (workingDays : ℕ) : Option (List ℚ) :=
  match sCurveProfileTable workingDays with
  | some p => some (distributeFromProfile totalPoints workingDays p)
  | none => (generateSCurveProfile workingDays).map (distributeFromProfile totalPoints workingDays)

/- ===== Velocity projector =====
generate-sprint-report.js lines 793-813 (readSprintData). -/

structure VelocityData where
  targetVelocity : ℚ
  currentVelocity : ℚ
  predictedTotal : ℤ
  velocityUpliftNeeded : ℤ
deriving DecidableEq, Repr

/-- The velocity block of `readSprintData` (generate-sprint-report.js
lines 793-813), as a function of the committed/delivered totals and the
working-day counts. -/
def computeVelocity (totalCommitted totalDelivered : ℚ)
    (totalWorkingDays workingDaysElapsed : ℕ) : VelocityData :=
  let targetVelocity : ℚ :=
    if 0 < totalWorkingDays then round1 (totalCommitted / totalWorkingDays) else 0
  let currentVelocity : ℚ :=
    if 0 < workingDaysElapsed then round1 (totalDelivered / workingDaysElapsed) else 0
  let predictedTotal : ℤ := jsRound (currentVelocity * totalWorkingDays)
  let remainingDays : ℤ := (totalWorkingDays : ℤ) - (workingDaysElapsed : ℤ)
  let remainingPoints : ℚ := totalCommitted - totalDelivered
  let velocityUpliftNeeded : ℤ :=
    if 0 < remainingDays ∧ 0 < currentVelocity then
      jsRound ((remainingPoints / (remainingDays : ℚ) / currentVelocity - 1) * 100)
    else 0
  ⟨targetVelocity, currentVelocity, predictedTotal, velocityUpliftNeeded⟩

/- ===== Overrun projection =====
generate-sprint-report.js lines 925-939 (generateReport). When
currentVelocity is 0 the fields stay undefined (modelled `none`) and the
PDF template (src/unnamed/part_002 lines 683-696) omits the metric
instead of printing a number. -/

structure OverrunData where
  daysNeeded : ℚ
  daysOverrun : ℤ
  isOverrun : Bool
deriving DecidableEq, Repr

/-- Overrun/underrun computation of `generateReport`
(generate-sprint-report.js lines 925-939); `none` models the fields
being left undefined when the current velocity is zero. -/
def computeOverrun (totalRemaining currentVelocity : ℚ)
    (workingDaysRemaining : ℤ) : Option OverrunData :=
  if 0 < currentVelocity then
    let daysNeeded := totalRemaining / currentVelocity
    let daysOverrun := jsRound (daysNeeded - (workingDaysRemaining : ℚ))
    some ⟨daysNeeded, daysOverrun, decide (0 < daysOverrun)⟩
  else
    none

/- ===== Daily progress =====
generate-issues-currently-in-qa.js lines 448-517. -/

/-- `getDateRange` (lines 451-462): all days from start to end inclusive. -/
def getDateRange (startDate endDate : ℤ) : List ℤ :=
  if endDate < startDate then []
  else (List.range ((endDate - startDate).toNat + 1)).map (fun i => startDate + (i : ℤ))

/-- A sprint issue as consumed by `calculateDailyProgress`. -/
structure QIssue where
  key : String
  summary : String
  issueType : String
  storyPoints : Option ℚ
  statusName : String
  updated : Option Timestamp
  changelog : Option (List History)
deriving Repr

/-- `issue.fields[storyPointsField] || 2` (lines 476 and 491):
absence and 0 both default to 2 here, for every issue type. -/
def qPoints (i : QIssue) : ℚ :=
  match i.storyPoints with
  | none => 2
  | some v => if v = 0 then 2 else v

/-- One day of the daily progress report (lines 505-513);
`percentComplete` is `(cumulative / total) * 100`, `none` = NaN. -/
structure DailyEntry where
  date : ℤ
  totalSprint : ℚ
  completedToday : ℚ
  cumulativeCompleted : ℚ
  remaining : ℚ
  percentComplete : Option ℚ
  completedKeys : List String
deriving Repr

/-- One day of the loop of `calculateDailyProgress` (lines 482-514). -/
def dailyStep (issues : List QIssue) (sprintStart : ℤ) (totalPoints : ℚ)
    (st : ℚ × List DailyEntry) (date : ℤ) : ℚ × List DailyEntry :=
  let completedTodayIssues := issues.filter
    (fun i => getCompletionDate i.changelog i.statusName i.updated == some date
      && decide (sprintStart ≤ date))
  let pointsCompletedToday := sumQ (completedTodayIssues.map qPoints)
  let cumulative := st.1 + pointsCompletedToday
  let entry : DailyEntry :=
    ⟨date, totalPoints, pointsCompletedToday, cumulative, totalPoints - cumulative,
      (jsDiv cumulative totalPoints).map (· * 100),
      completedTodayIssues.map QIssue.key⟩
  (cumulative, st.2 ++ [entry])

/-- `calculateDailyProgress` (generate-issues-currently-in-qa.js lines
467-517). -/
def calculateDailyProgress (issues : List QIssue)
    (sprintStartDate today : ℤ) : List DailyEntry :=
  let endDate := if sprintStartDate ≤ today then today else sprintStartDate
  let dates := getDateRange sprintStartDate endDate
  let totalPoints := sumQ (issues.map qPoints)
  (dates.foldl (dailyStep issues sprintStartDate totalPoints) (0, [])).2

/- ===== Sample changelog used by the C1 witness ===== -/

/-- A history entry at day 10 containing both a status transition to
"Closed" and a Sprint-field addition of "NH Sprint 30". -/
def sampleEntry1 : History :=
  ⟨⟨10, 0⟩, [⟨"status", none, some "Closed", none⟩,
             ⟨"Sprint", some "customfield_10020", some "NH Sprint 30", none⟩]⟩

/-- The same changes again at day 20. -/
def sampleEntry2 : History :=
  ⟨⟨20, 0⟩, [⟨"status", none, some "Closed", none⟩,
             ⟨"Sprint", some "customfield_10020", some "NH Sprint 30", none⟩]⟩

def sampleHistories : List History := [sampleEntry1, sampleEntry2]

/- ===== Concrete sample data used by witnesses and counterexamples ===== -/

/-- Issue A of the 3-issue scenario: 5 points, Story, Closed. -/
def sampleIssueA : FetchedIssue := ⟨"A", "issue a", "Story", some 5, "Closed", none⟩

/-- Issue B of the 3-issue scenario: no points, Story (defaults to 2). -/
def sampleIssueB : FetchedIssue := ⟨"B", "issue b", "Story", none, "In Dev", none⟩

/-- The 3-issue run: A and B fetched, the third detail fetch threw. -/
def sampleRun : RunSummary :=
  fetchCompletedStoryPoints [some sampleIssueA, some sampleIssueB, none]
    ["READY FOR RELEASE", "CLOSED"] 0 100

/-- A 5-point issue of assignee bob, first in the input. -/
def devIssueBob : DevIssue := ⟨"I1", "bob", 5, "In Dev"⟩

/-- A 5-point issue of assignee alice, second in the input. -/
def devIssueAlice : DevIssue := ⟨"I2", "alice", 5, "In Dev"⟩

/-- The precomputed 10-day profile, used by the C5 witness. -/
def tenDayProfile : List ℚ :=
  [5/100, 7/100, 10/100, 12/100, 13/100, 13/100, 12/100, 10/100, 7/100, 5/100]

/- ============================================================
   Theorems
   ============================================================ -/

theorem sumQ_eq_sum (l : List ℚ) : sumQ l = l.sum := by
  have h : ∀ (l : List ℚ) (a : ℚ), l.foldl (· + ·) a = a + l.sum := by
    intro l
    induction l with
    | nil => intro a; simp
    | cons x xs ih => intro a; simp [List.foldl_cons, ih, List.sum_cons]; ring
  simpa using h l 0

theorem pointsSum_eq_sum (l : List SIssue) :
    pointsSum l = (l.map SIssue.storyPoints).sum := by
  have h : ∀ (l : List SIssue) (a : ℚ),
      l.foldl (fun s i => s + i.storyPoints) a = a + (l.map SIssue.storyPoints).sum := by
    intro l
    induction l with
    | nil => intro a; simp
    | cons x xs ih => intro a; simp [List.foldl_cons, ih, List.sum_cons]; ring
  simpa using h l 0

theorem jsRound_err (x : ℚ) : |(jsRound x : ℚ) - x| ≤ 1/2 := by
  unfold jsRound
  have h1 : (⌊x + 1/2⌋ : ℚ) ≤ x + 1/2 := Int.floor_le _
  have h2 : x + 1/2 - 1 < (⌊x + 1/2⌋ : ℚ) := Int.sub_one_lt_floor _
  rw [abs_le]
  constructor <;> linarith

theorem round1_err (x : ℚ) : |round1 x - x| ≤ 1/20 := by
  unfold round1
  have h := jsRound_err (x * 10)
  have heq : (jsRound (x * 10) : ℚ)/10 - x = ((jsRound (x * 10) : ℚ) - x * 10)/10 := by
    ring
  rw [heq, abs_div, abs_of_pos (show (0:ℚ) < 10 by norm_num),
    div_le_iff₀ (show (0:ℚ) < 10 by norm_num)]
  linarith

/-- Evaluation helper: `jsRound x = n` from the two bracketing bounds. -/
theorem jsRound_eq {x : ℚ} {n : ℤ} (h1 : (n : ℚ) ≤ x + 1/2) (h2 : x + 1/2 < n + 1) :
    jsRound x = n := by
  unfold jsRound
  exact Int.floor_eq_iff.mpr ⟨h1, h2⟩

/-- The first element of a nonempty filter is what `find?` returns. -/
theorem find?_of_filter_cons {α : Type} (q : α → Bool) (l : List α)
    (x : α) (xs : List α) (h : l.filter q = x :: xs) : l.find? q = some x := by
  induction l with
  | nil => simp at h
  | cons a t ih =>
    rw [List.filter_cons] at h
    by_cases ha : q a
    · rw [if_pos ha] at h
      rw [List.find?_cons_of_pos _ ha]
      exact congrArg some (List.cons_eq_cons.mp h).1
    · rw [if_neg ha] at h
      rw [List.find?_cons_of_neg _ ha]
      exact ih h

/-- C1: on a chronological changelog whose qualifying transitions are
exactly two entries at days T1 < T2, the most-recent policy resolver
(`getCompletionDate`, reverse scan) returns T2, the last qualifying
entry, while the first-match resolvers (`analyzeSprintAddition`, and the
date-window resolver `getStatusChangeDate` with both entries inside the
range) return the earliest qualifying entry T1. -/
theorem c1_resolution_policies (hs : List History) (e1 e2 : History)
    (statusName : String) (upd : Option Timestamp)
    (fid sname : String) (cd : Timestamp)
    (targets : List String) (startD endD : ℤ)
    (horder : e1.created.day < e2.created.day)
    (hcomp : hs.filter qCompletion = [e1, e2])
    (hsprint : hs.filter (qSprint fid sname) = [e1, e2])
    (hwin : hs.filter (qStatusWindow targets startD endD) = [e1, e2]) :
    getCompletionDate (some hs) statusName upd = some e2.created.day
    ∧ analyzeSprintAddition (some hs) fid sname cd = e1.created
    ∧ getStatusChangeDate (some hs) targets startD endD = some e1.created.day := by
  refine ⟨?_, ?_, ?_⟩
  · have hrev : hs.reverse.filter qCompletion = [e2, e1] := by
      rw [List.filter_reverse, hcomp]
      rfl
    have hfind := find?_of_filter_cons qCompletion hs.reverse e2 [e1] hrev
    simp only [getCompletionDate]
    rw [hfind]
  · have hfind := find?_of_filter_cons (qSprint fid sname) hs e1 [e2] hsprint
    simp only [analyzeSprintAddition]
    rw [hfind]
  · have hfind := find?_of_filter_cons (qStatusWindow targets startD endD) hs e1 [e2] hwin
    simp only [getStatusChangeDate]
    rw [hfind]

/-- Witness for C1 on a concrete two-entry changelog. -/
theorem c1_resolution_policies_witness :
    getCompletionDate (some sampleHistories) "In Dev" none = some 20
    ∧ analyzeSprintAddition (some sampleHistories) "customfield_10020" "Sprint 30" ⟨0, 0⟩
        = Timestamp.mk 10 0
    ∧ getStatusChangeDate (some sampleHistories) ["Closed"] 0 100 = some 10 :=
  c1_resolution_policies sampleHistories sampleEntry1 sampleEntry2
    "In Dev" none "customfield_10020" "Sprint 30" ⟨0, 0⟩ ["Closed"] 0 100
    (by decide) (by decide) (by decide) (by decide)

theorem sum_map_filter_partition {α : Type} (f : α → ℚ) (p : α → Bool) (l : List α) :
    ((l.filter p).map f).sum + ((l.filter (fun a => !(p a))).map f).sum = (l.map f).sum := by
  induction l with
  | nil => simp
  | cons a t ih =>
    by_cases h : p a
    · rw [List.filter_cons, List.filter_cons, if_pos (by simp [h]), if_neg (by simp [h])]
      simp only [List.map_cons, List.sum_cons]
      linarith
    · rw [List.filter_cons, List.filter_cons, if_neg (by simp [h]), if_pos (by simp [h])]
      simp only [List.map_cons, List.sum_cons]
      linarith

theorem allocUpsert_total (m : List AllocStats) (i : AllocIssue) :
    ((allocUpsert m i).map AllocStats.totalPoints).sum
      = (m.map AllocStats.totalPoints).sum + allocPoints i := by
  induction m with
  | nil => simp [allocUpsert, allocAdd]
  | cons s rest ih =>
    by_cases h : s.accountId = i.accountId
    · simp only [allocUpsert, if_pos h, List.map_cons, List.sum_cons, allocAdd]
      ring
    · simp only [allocUpsert, if_neg h, List.map_cons, List.sum_cons, ih]
      ring

theorem allocFold_total (issues : List (Option AllocIssue)) :
    ∀ m : List AllocStats,
      ((issues.foldl allocStep m).map AllocStats.totalPoints).sum
        = (m.map AllocStats.totalPoints).sum
          + (((issues.filterMap id).filter allocCounted).map allocPoints).sum := by
  induction issues with
  | nil => intro m; simp
  | cons oi rest ih =>
    intro m
    cases oi with
    | none =>
      simpa [allocStep] using ih m
    | some i =>
      by_cases h : allocCounted i
      · simp only [List.foldl_cons, allocStep, h, if_pos, List.filterMap_cons, id,
          List.filter_cons, List.map_cons, List.sum_cons]
        rw [ih (allocUpsert m i), allocUpsert_total]
        ring
      · simp only [List.foldl_cons, allocStep, List.filterMap_cons, id, List.filter_cons, h]
        rw [if_neg (by simp [h])]
        exact ih m

/-- C2: the bucket sums of each partition pass equal the total of the
normalized points over the same issue set: initial-scope plus added-scope
points, completed plus remaining points (calculateScopeChanges), and the
per-assignee totals of the sprint allocation, which drop only the issues
removed by the explicit Epic/Story/Bug type filter. -/
theorem c2_partition_sums (issues : List SIssue) (sprintStart : Timestamp)
    (ais : List (Option AllocIssue)) :
    (calculateScopeChanges issues sprintStart).initialPoints
      + (calculateScopeChanges issues sprintStart).addedPoints = pointsSum issues
    ∧ (calculateScopeChanges issues sprintStart).completedPoints
      + (calculateScopeChanges issues sprintStart).remainingPoints = pointsSum issues
    ∧ ((fetchSprintAllocation ais).map (fun b => b.stats.totalPoints)).sum
      = (((ais.filterMap id).filter allocCounted).map allocPoints).sum := by
  refine ⟨?_, ?_, ?_⟩
  · simp only [calculateScopeChanges]
    rw [pointsSum_eq_sum, pointsSum_eq_sum, pointsSum_eq_sum]
    exact sum_map_filter_partition SIssue.storyPoints _ issues
  · simp only [calculateScopeChanges]
    rw [pointsSum_eq_sum, pointsSum_eq_sum, pointsSum_eq_sum]
    exact sum_map_filter_partition SIssue.storyPoints _ issues
  · unfold fetchSprintAllocation
    have hperm := (List.perm_insertionSort relAllocDesc
      ((ais.foldl allocStep []).map
        (fun s => AllocBucket.mk s (pctOfTotal s.completedPoints s.totalPoints)))).map
      (fun b => b.stats.totalPoints)
    rw [hperm.sum_eq, List.map_map]
    simpa using allocFold_total ais []
/-- C4: the point normalizer returns a positive stored value unchanged and
unmarked; substitutes the default 2 and marks the record for a missing or
zero value on an estimable type (Story, Bug); and returns 0 unmarked for a
non-estimable type with no points. -/
theorem c4_point_normalizer (raw : Option ℚ) (t : String) :
    (∀ v : ℚ, raw = some v → 0 < v → normalizeIssuePoints raw t = (v, false))
    ∧ ((raw = none ∨ raw = some 0) → (t = "Story" ∨ t = "Bug") →
        normalizeIssuePoints raw t = (2, true))
    ∧ ((raw = none ∨ raw = some 0) → t ≠ "Story" → t ≠ "Bug" →
        normalizeIssuePoints raw t = (0, false)) := by
  refine ⟨?_, ?_, ?_⟩
  · intro v hv hpos
    subst hv
    simp only [normalizeIssuePoints, Option.getD_some]
    rw [if_neg]
    rintro ⟨-, h0⟩
    exact absurd h0 (ne_of_gt hpos)
  · rintro (h | h) ht <;> subst h <;>
      simp [normalizeIssuePoints, ht]
  · rintro (h | h) h1 h2 <;> subst h <;>
      simp [normalizeIssuePoints, h1, h2]

/-- Witness for C4 at concrete inputs. -/
theorem c4_point_normalizer_witness :
    normalizeIssuePoints (some 5) "Story" = (5, false)
    ∧ normalizeIssuePoints none "Bug" = (2, true)
    ∧ normalizeIssuePoints (some 0) "Epic" = (0, false) :=
  ⟨(c4_point_normalizer (some 5) "Story").1 5 rfl (by norm_num),
   (c4_point_normalizer none "Bug").2.1 (Or.inl rfl) (Or.inr rfl),
   (c4_point_normalizer (some 0) "Epic").2.2 (Or.inr rfl)
     (by decide) (by decide)⟩

/-- C6 counterexample: the claim states
`currentVelocity = totalDelivered / workingDaysElapsed` exactly, but the
code rounds the quotient to 1 decimal place: with totalDelivered = 1 and
workingDaysElapsed = 3 the code yields 0.3, not 1/3. -/
theorem c6_counterexample :
    (computeVelocity 0 1 10 3).currentVelocity = 3/10
    ∧ (3/10 : ℚ) ≠ 1/3 := by
  constructor
  · norm_num [computeVelocity, round1, jsRound]
  · norm_num

/-- C6 (amended): the velocity projector computes the target and current
velocities as the claimed quotients rounded to 1 decimal place (within
1/20 of the exact quotient, and 0 when the respective day count is 0),
and predictedTotal as currentVelocity * totalWorkingDays rounded to the
nearest whole point; for totalCommitted=100, totalWorkingDays=10,
workingDaysElapsed=5, totalDelivered=40 it yields targetVelocity 10,
currentVelocity 8, predictedTotal 80. -/
theorem c6_velocity_projector (c d : ℚ) (twd wde : ℕ) :
    (wde = 0 → (computeVelocity c d twd wde).currentVelocity = 0)
    ∧ (0 < wde →
        (computeVelocity c d twd wde).currentVelocity = round1 (d / wde)
        ∧ |(computeVelocity c d twd wde).currentVelocity - d / wde| ≤ 1/20)
    ∧ (0 < twd →
        (computeVelocity c d twd wde).targetVelocity = round1 (c / twd)
        ∧ |(computeVelocity c d twd wde).targetVelocity - c / twd| ≤ 1/20)
    ∧ (computeVelocity c d twd wde).predictedTotal
        = jsRound ((computeVelocity c d twd wde).currentVelocity * twd)
    ∧ (computeVelocity 100 40 10 5).targetVelocity = 10
    ∧ (computeVelocity 100 40 10 5).currentVelocity = 8
    ∧ (computeVelocity 100 40 10 5).predictedTotal = 80 := by
  refine ⟨?_, ?_, ?_, ?_, ?_, ?_, ?_⟩
  · intro h; subst h; simp [computeVelocity]
  · intro h
    constructor
    · simp [computeVelocity, h]
    · simp only [computeVelocity, if_pos h]
      exact round1_err _
  · intro h
    constructor
    · simp [computeVelocity, h]
    · simp only [computeVelocity, if_pos h]
      exact round1_err _
  · simp [computeVelocity]
  · norm_num [computeVelocity, round1, jsRound]
  · norm_num [computeVelocity, round1, jsRound]
  · norm_num [computeVelocity, round1, jsRound]

/-- Witness for C6 at concrete inputs. -/
theorem c6_velocity_projector_witness :
    (computeVelocity 100 40 10 5).currentVelocity = round1 ((40 : ℚ) / (5 : ℕ))
    ∧ (computeVelocity 100 40 10 5).predictedTotal = 80 :=
  ⟨((c6_velocity_projector 100 40 10 5).2.1 (by norm_num)).1,
   (c6_velocity_projector 100 40 10 5).2.2.2.2.2.2⟩

/-- C7: the overrun projection computes
daysNeeded = totalRemainingPoints / currentVelocity and
overrunDays = round(daysNeeded - workingDaysRemaining), with isOverrun
(behind schedule) exactly when overrunDays is positive; when
currentVelocity is 0 the result is left undefined (`none`), never zero;
and for totalRemainingPoints=50, currentVelocity=5,
workingDaysRemaining=8 it yields daysNeeded=10 and overrunDays=2. -/
theorem c7_overrun_projection (rem cv : ℚ) (wdr : ℤ) :
    (0 < cv →
      computeOverrun rem cv wdr
        = some ⟨rem / cv, jsRound (rem / cv - (wdr : ℚ)),
                decide (0 < jsRound (rem / cv - (wdr : ℚ)))⟩)
    ∧ computeOverrun rem 0 wdr = none
    ∧ computeOverrun 50 5 8 = some ⟨10, 2, true⟩ := by
  refine ⟨?_, ?_, ?_⟩
  · intro h
    simp [computeOverrun, h]
  · simp [computeOverrun]
  · norm_num [computeOverrun, jsRound]

/-- Witness for C7 at concrete inputs. -/
theorem c7_overrun_projection_witness :
    computeOverrun 50 5 8 = some ⟨(50 : ℚ) / 5, jsRound ((50 : ℚ)/5 - ((8 : ℤ) : ℚ)),
      decide (0 < jsRound ((50 : ℚ)/5 - ((8 : ℤ) : ℚ)))⟩ :=
  (c7_overrun_projection 50 5 8).1 (by norm_num)

theorem processLoop_totals (targets : List String) (sD eD : ℤ)
    (l : List (Option FetchedIssue)) :
    ∀ acc : RunTotals,
      (l.foldl (processIssue targets sD eD) acc).warnings
          = acc.warnings + (l.filter Option.isNone).length
      ∧ (l.foldl (processIssue targets sD eD) acc).results.length
          = acc.results.length + (l.filter Option.isSome).length
      ∧ (l.foldl (processIssue targets sD eD) acc).totalStoryPoints
          = acc.totalStoryPoints + ((l.filterMap id).map fetchedPoints).sum := by
  induction l with
  | nil => intro acc; simp
  | cons o rest ih =>
    intro acc
    obtain ⟨h1, h2, h3⟩ := ih (processIssue targets sD eD acc o)
    rw [List.foldl_cons]
    cases o with
    | none =>
      refine ⟨?_, ?_, ?_⟩
      · rw [h1]
        simp only [processIssue, List.filter_cons, Option.isNone_none, if_pos]
        simp
        omega
      · rw [h2]
        simp [processIssue, List.filter_cons]
      · rw [h3]
        simp [processIssue, List.filterMap_cons]
    | some iss =>
      refine ⟨?_, ?_, ?_⟩
      · rw [h1]
        simp [processIssue, List.filter_cons]
      · rw [h2]
        simp only [processIssue, List.filter_cons, Option.isSome_some, if_pos]
        simp
        omega
      · rw [h3]
        simp only [processIssue, List.filterMap_cons, id, List.map_cons, List.sum_cons]
        ring

/-- C3 counterexample: in the 3-issue scenario where issue C's detail
fetch throws, the reported issue count of the summary is 3 (the search
count), not the 2 the claim states; the other parts of the claim do hold
(C is omitted from the totals, one warning, 2 result rows, 7 points). -/
theorem c3_counterexample :
    sampleRun.issueCount = 3 ∧ sampleRun.issueCount ≠ 2
    ∧ sampleRun.totals.totalStoryPoints = 7
    ∧ sampleRun.totals.results.length = 2
    ∧ sampleRun.totals.warnings = 1 := by
  refine ⟨rfl, by decide, ?_, rfl, rfl⟩
  norm_num [sampleRun, fetchCompletedStoryPoints, processIssue, emptyTotals,
    sampleIssueA, sampleIssueB, fetchedPoints]

/-- C3 (amended): a per-issue fetch failure does not abort the run: the
failed issue contributes nothing to the point total, is absent from the
result rows, and is logged as a warning, so the run still aggregates the
remaining issues (7 points and 2 rows in the 3-issue scenario); however
the reported issueCount is the search-result count (3), not the smaller
processed count. -/
theorem c3_partial_failure_tolerance (fetched : List (Option FetchedIssue))
    (targets : List String) (sD eD : ℤ) :
    (fetchCompletedStoryPoints fetched targets sD eD).issueCount = fetched.length
    ∧ (fetchCompletedStoryPoints fetched targets sD eD).totals.warnings
        = (fetched.filter Option.isNone).length
    ∧ (fetchCompletedStoryPoints fetched targets sD eD).totals.results.length
        = (fetched.filter Option.isSome).length
    ∧ (fetchCompletedStoryPoints fetched targets sD eD).totals.totalStoryPoints
        = ((fetched.filterMap id).map fetchedPoints).sum := by
  obtain ⟨h1, h2, h3⟩ := processLoop_totals targets sD eD fetched emptyTotals
  refine ⟨rfl, ?_, ?_, ?_⟩
  · simpa [fetchCompletedStoryPoints, emptyTotals] using h1
  · simpa [fetchCompletedStoryPoints, emptyTotals] using h2
  · simpa [fetchCompletedStoryPoints, emptyTotals] using h3

/-- C9 counterexample: two buckets with equal point totals (bob first in
the input, alice second) come out of `groupByAssignee` in input order
["bob", "alice"], not in the lexical key order ["alice", "bob"] the
claim states. -/
theorem c9_counterexample :
    ((groupByAssignee [devIssueBob, devIssueAlice]).map AssigneeBucket.name) = ["bob", "alice"]
    ∧ ((groupByAssignee [devIssueBob, devIssueAlice]).map AssigneeBucket.totalPoints) = [5, 5]
    ∧ "alice" < "bob"
    ∧ (["bob", "alice"] : List String) ≠ ["alice", "bob"] := by
  have hlow : asciiLower "In Dev" = "in dev" := by decide
  refine ⟨?_, ?_, ?_, by decide⟩
  · norm_num [groupByAssignee, bucketUpsert, bucketAdd, hlow,
      devIssueBob, devIssueAlice, List.insertionSort, List.orderedInsert,
      relBucketDesc]
  · norm_num [groupByAssignee, bucketUpsert, bucketAdd, hlow,
      devIssueBob, devIssueAlice, List.insertionSort, List.orderedInsert,
      relBucketDesc]
  · rw [String.lt_iff_toList_lt]
    decide

/-- C9 (amended): display bucket lists are sorted by descending point
total and are a permutation of the grouped buckets, for both
`groupByAssignee` and `fetchSprintAllocation`; ties are left in the
stable-sort (input/insertion) order, not re-ordered by key. -/
theorem c9_bucket_ordering (devIssues : List DevIssue)
    (allocIssues : List (Option AllocIssue)) :
    List.Sorted relBucketDesc (groupByAssignee devIssues)
    ∧ (groupByAssignee devIssues).Perm (devIssues.foldl bucketUpsert [])
    ∧ List.Sorted relAllocDesc (fetchSprintAllocation allocIssues)
    ∧ (fetchSprintAllocation allocIssues).Perm
        ((allocIssues.foldl allocStep []).map
          (fun s => AllocBucket.mk s (pctOfTotal s.completedPoints s.totalPoints))) := by
  refine ⟨?_, ?_, ?_, ?_⟩
  · exact List.sorted_insertionSort relBucketDesc _
  · exact List.perm_insertionSort relBucketDesc _
  · exact List.sorted_insertionSort relAllocDesc _
  · exact List.perm_insertionSort relAllocDesc _

/-- C8 counterexample: `calculateDailyProgress` on a sprint with zero
total points (empty issue list) produces a daily entry whose
percentComplete is NaN (modelled `none`), not 0: the division
`cumulative / totalPoints` is unguarded. -/
theorem c8_counterexample :
    (calculateDailyProgress [] 0 0).map DailyEntry.percentComplete = [none]
    ∧ (none : Option ℚ) ≠ some 0 := by
  refine ⟨?_, by simp⟩
  norm_num [calculateDailyProgress, getDateRange, dailyStep, sumQ, jsDiv, show List.range 1 = [0] from rfl]

/-- C8 (amended): the percent-of-total computations of the assignee
allocation report guard a zero total and yield 0 (`pctOfTotal`), but the
daily-progress percentComplete divides without a guard and is NaN
(`none`) on a sprint with zero total points. -/
theorem c8_zero_total_percentages :
    (∀ c : ℚ, pctOfTotal c 0 = 0)
    ∧ (calculateDailyProgress [] 0 0).map DailyEntry.percentComplete = [none] := by
  constructor
  · intro c
    simp [pctOfTotal]
  · norm_num [calculateDailyProgress, getDateRange, dailyStep, sumQ, jsDiv, show List.range 1 = [0] from rfl]

theorem jsRound_intCast (j : ℤ) : jsRound (j : ℚ) = j := by
  unfold jsRound
  rw [add_comm, Int.floor_add_int]
  rw [show ⌊(1/2 : ℚ)⌋ = 0 from Int.floor_eq_iff.mpr (by norm_num)]
  ring

theorem round2_centile (x : ℚ) : ∃ j : ℤ, round2 x = (j : ℚ)/100 :=
  ⟨jsRound (x * 100), rfl⟩

theorem round2_of_centile {x : ℚ} (h : ∃ j : ℤ, x = (j : ℚ)/100) : round2 x = x := by
  obtain ⟨j, rfl⟩ := h
  unfold round2
  rw [show (j : ℚ)/100 * 100 = (j : ℚ) by field_simp, jsRound_intCast]

theorem sum_centile (l : List ℚ) (h : ∀ x ∈ l, ∃ j : ℤ, x = (j : ℚ)/100) :
    ∃ j : ℤ, l.sum = (j : ℚ)/100 := by
  induction l with
  | nil => exact ⟨0, by simp⟩
  | cons a t ih =>
    obtain ⟨ja, ha⟩ := h a (by simp)
    obtain ⟨jt, ht⟩ := ih (fun x hx => h x (by simp [hx]))
    refine ⟨ja + jt, ?_⟩
    rw [List.sum_cons, ha, ht]
    push_cast
    ring

theorem sum_set_getD (l : List ℚ) (i : ℕ) (d : ℚ) (h : i < l.length) :
    (l.set i (l.getD i 0 + d)).sum = l.sum + d := by
  induction l generalizing i with
  | nil => simp at h
  | cons a t ih =>
    cases i with
    | zero =>
      simp only [List.getD_cons_zero, List.set_cons_zero, List.sum_cons]
      ring
    | succ n =>
      simp only [List.getD_cons_succ, List.set_cons_succ, List.sum_cons]
      rw [ih n (by simpa using h)]
      ring

/-- Core of the C5 analysis: for a 2-decimal total, the distribution sum
is within 0.01 of the total, and equals it exactly whenever the rounded
residual exceeds 0.01 in magnitude (the only case in which the code
applies the middle-day correction). -/
theorem distributeFromProfile_sum_correction (T : ℚ) (wd : ℕ) (p : List ℚ)
    (hT : ∃ j : ℤ, T = (j : ℚ)/100) (hlen : wd / 2 < p.length) :
    |sumQ (distributeFromProfile T wd p) - T| ≤ 1/100
    ∧ (1/100 < |round2 (T - sumQ (p.map (fun q => round2 (T * q))))| →
        sumQ (distributeFromProfile T wd p) = T) := by
  have hrawC : ∀ x ∈ p.map (fun q => round2 (T * q)), ∃ j : ℤ, x = (j : ℚ)/100 := by
    intro x hx
    obtain ⟨q, hq, rfl⟩ := List.mem_map.mp hx
    exact round2_centile _
  obtain ⟨js, hs⟩ := sum_centile _ hrawC
  have hrC : ∃ j : ℤ, T - sumQ (p.map (fun q => round2 (T * q))) = (j : ℚ)/100 := by
    obtain ⟨jt, ht⟩ := hT
    refine ⟨jt - js, ?_⟩
    rw [sumQ_eq_sum, hs, ht]
    push_cast
    ring
  have hdiff := round2_of_centile hrC
  by_cases hc : 1/100 < |round2 (T - sumQ (p.map (fun q => round2 (T * q))))|
  · have heq : sumQ (distributeFromProfile T wd p) = T := by
      unfold distributeFromProfile
      rw [if_pos hc, sumQ_eq_sum, hdiff,
        sum_set_getD _ _ _ (by simpa using hlen), ← sumQ_eq_sum]
      ring
    exact ⟨by rw [heq]; simp, fun _ => heq⟩
  · have heq : sumQ (distributeFromProfile T wd p)
        = sumQ (p.map (fun q => round2 (T * q))) := by
      unfold distributeFromProfile
      rw [if_neg hc]
    constructor
    · rw [heq]
      rw [hdiff] at hc
      push_neg at hc
      calc |sumQ (p.map (fun q => round2 (T * q))) - T|
          = |T - sumQ (p.map (fun q => round2 (T * q)))| := abs_sub_comm _ _
        _ ≤ 1/100 := hc
    · intro hprem
      exact absurd hprem hc

/-- C5 (amended): for a 2-decimal totalCommitted and a precomputed
profile, the rounded daily distribution sums to within 0.01 of the
total, and sums to it exactly whenever the rounded residual exceeds
0.01 in magnitude — that is the only case in which the code adds the
residual to the middle day; smaller residuals are left uncorrected. In
particular totalPoints=100 with the 10-day profile
[5,7,10,12,13,13,12,10,7,5] sums to exactly 100 (residual 6 added to the
middle day). -/
theorem c5_scurve_rounding (k : ℤ) (wd : ℕ) (p : List ℚ)
    (hp : sCurveProfileTable wd = some p) :
    distributeSCurve ((k : ℚ)/100) wd = some (distributeFromProfile ((k : ℚ)/100) wd p)
    ∧ |sumQ (distributeFromProfile ((k : ℚ)/100) wd p) - (k : ℚ)/100| ≤ 1/100
    ∧ (1/100 < |round2 ((k : ℚ)/100
          - sumQ (p.map (fun q => round2 ((k : ℚ)/100 * q))))| →
        sumQ (distributeFromProfile ((k : ℚ)/100) wd p) = (k : ℚ)/100) := by
  have hlen : wd / 2 < p.length := by
    unfold sCurveProfileTable at hp
    split_ifs at hp with h10 h9 h8 h7 h6 h5
    · simp only [Option.some.injEq] at hp
      subst h10
      rw [← hp]
      decide
    · simp only [Option.some.injEq] at hp
      subst h9
      rw [← hp]
      decide
    · simp only [Option.some.injEq] at hp
      subst h8
      rw [← hp]
      decide
    · simp only [Option.some.injEq] at hp
      subst h7
      rw [← hp]
      decide
    · simp only [Option.some.injEq] at hp
      subst h6
      rw [← hp]
      decide
    · simp only [Option.some.injEq] at hp
      subst h5
      rw [← hp]
      decide
  have h := distributeFromProfile_sum_correction ((k : ℚ)/100) wd p ⟨k, rfl⟩ hlen
  refine ⟨?_, h.1, h.2⟩
  unfold distributeSCurve
  rw [hp]

/-- Evaluation helper: `round2 x = n/100` from the bracketing bounds. -/
theorem round2_eval (x : ℚ) (n : ℤ) (h1 : (n : ℚ) ≤ x * 100 + 1/2)
    (h2 : x * 100 + 1/2 < n + 1) : round2 x = (n : ℚ)/100 := by
  unfold round2
  rw [jsRound_eq h1 h2]

/-- C5 counterexample: the claim states the corrected distribution sums
exactly to totalCommitted for every total; but for totalPoints = 0.17
over the 10-day profile the rounded days sum to 0.16, the residual 0.01
is not corrected (the code only corrects when |diff| > 0.01), and the
distribution sums to 0.16, not 0.17. -/
theorem c5_counterexample :
    (distributeSCurve (17/100) 10).map sumQ = some (16/100)
    ∧ (16/100 : ℚ) ≠ 17/100 := by
  have f5 : round2 ((17/2000 : ℚ)) = ((1 : ℤ) : ℚ)/100 :=
    round2_eval _ 1 (by norm_num) (by norm_num)
  have f7 : round2 ((119/10000 : ℚ)) = ((1 : ℤ) : ℚ)/100 :=
    round2_eval _ 1 (by norm_num) (by norm_num)
  have f10 : round2 ((17/1000 : ℚ)) = ((2 : ℤ) : ℚ)/100 :=
    round2_eval _ 2 (by norm_num) (by norm_num)
  have f12 : round2 ((51/2500 : ℚ)) = ((2 : ℤ) : ℚ)/100 :=
    round2_eval _ 2 (by norm_num) (by norm_num)
  have f13 : round2 ((221/10000 : ℚ)) = ((2 : ℤ) : ℚ)/100 :=
    round2_eval _ 2 (by norm_num) (by norm_num)
  have fdiff : round2 ((1/100 : ℚ)) = ((1 : ℤ) : ℚ)/100 :=
    round2_eval _ 1 (by norm_num) (by norm_num)
  have htab : sCurveProfileTable 10
      = some [5/100, 7/100, 10/100, 12/100, 13/100, 13/100, 12/100, 10/100, 7/100, 5/100] := rfl
  have hds : distributeSCurve (17/100) 10
      = some (distributeFromProfile (17/100) 10
          [5/100, 7/100, 10/100, 12/100, 13/100, 13/100, 12/100, 10/100, 7/100, 5/100]) := by
    unfold distributeSCurve
    rw [htab]
  refine ⟨?_, by norm_num⟩
  rw [hds, Option.map_some']
  norm_num [distributeFromProfile, sumQ_eq_sum, f5, f7, f10, f12, f13, fdiff,
    abs_of_pos (show (0:ℚ) < 1/100 by norm_num), List.sum_cons, List.sum_nil]

/-- Witness for C5: totalCommitted = 100 over the 10-day profile; the
residual is 6 (> 0.01), the correction applies, and the distribution
sums to exactly 100. -/
theorem c5_scurve_rounding_witness :
    distributeSCurve (((10000 : ℤ) : ℚ)/100) 10
        = some (distributeFromProfile (((10000 : ℤ) : ℚ)/100) 10 tenDayProfile)
    ∧ sumQ (distributeFromProfile (((10000 : ℤ) : ℚ)/100) 10 tenDayProfile)
        = ((10000 : ℤ) : ℚ)/100 := by
  have h := c5_scurve_rounding 10000 10 tenDayProfile rfl
  refine ⟨h.1, h.2.2 ?_⟩
  have g5 : round2 (5 : ℚ) = ((500 : ℤ) : ℚ)/100 :=
    round2_eval _ 500 (by norm_num) (by norm_num)
  have g7 : round2 (7 : ℚ) = ((700 : ℤ) : ℚ)/100 :=
    round2_eval _ 700 (by norm_num) (by norm_num)
  have g10 : round2 (10 : ℚ) = ((1000 : ℤ) : ℚ)/100 :=
    round2_eval _ 1000 (by norm_num) (by norm_num)
  have g12 : round2 (12 : ℚ) = ((1200 : ℤ) : ℚ)/100 :=
    round2_eval _ 1200 (by norm_num) (by norm_num)
  have g13 : round2 (13 : ℚ) = ((1300 : ℤ) : ℚ)/100 :=
    round2_eval _ 1300 (by norm_num) (by norm_num)
  have gdiff : round2 (6 : ℚ) = ((600 : ℤ) : ℚ)/100 :=
    round2_eval _ 600 (by norm_num) (by norm_num)
  norm_num [tenDayProfile, sumQ_eq_sum, g5, g7, g10, g12, g13, gdiff,
    abs_of_pos (show (0:ℚ) < 6 by norm_num), List.sum_cons, List.sum_nil]

theorem optMap_eq_map {α β : Type} (f : α → Option β) (g : α → β) (l : List α)
    (h : ∀ a ∈ l, f a = some (g a)) : optMap f l = some (l.map g) := by
  induction l with
  | nil => rfl
  | cons a t ih =>
    have ha := h a (by simp)
    have ht := ih (fun x hx => h x (by simp [hx]))
    simp [optMap, ha, ht]

/-- For at least 2 days the generated profile exists and starts with
share 0: smoothstep at t = 0 is 0 and survives the normalization. -/
theorem generateSCurveProfile_head (m : ℕ) :
    ∃ rest, generateSCurveProfile (m + 2) = some (0 :: rest) := by
  have hden : ((m + 2 : ℕ) : ℚ) - 1 = (m : ℚ) + 1 := by
    push_cast
    ring
  have hdpos : (0 : ℚ) < (m : ℚ) + 1 := by positivity
  have hfirst : optMap (fun i : ℕ => jsDiv (i : ℚ) (((m + 2 : ℕ) : ℚ) - 1))
      (List.range (m + 2))
      = some ((List.range (m + 2)).map (fun i : ℕ => (i : ℚ) / ((m : ℚ) + 1))) := by
    apply optMap_eq_map
    intro a _
    rw [hden]
    unfold jsDiv
    rw [if_neg (ne_of_gt hdpos)]
  have hnn : ∀ v ∈ ((List.range (m + 2)).map
      (fun i : ℕ => (i : ℚ) / ((m : ℚ) + 1))).map smoothstep, 0 ≤ v := by
    intro v hv
    obtain ⟨t, htm, rfl⟩ := List.mem_map.mp hv
    obtain ⟨i, him, rfl⟩ := List.mem_map.mp htm
    have hle : ((i : ℚ) / ((m : ℚ) + 1)) ≤ 1 := by
      rw [div_le_one hdpos]
      have : i ≤ m + 1 := by
        have := List.mem_range.mp him
        omega
      exact_mod_cast this
    unfold smoothstep
    have h3 : (0 : ℚ) ≤ 3 - 2 * ((i : ℚ) / ((m : ℚ) + 1)) := by linarith
    exact mul_nonneg (mul_self_nonneg _) h3
  have hmem1 : (1 : ℚ) ∈ ((List.range (m + 2)).map
      (fun i : ℕ => (i : ℚ) / ((m : ℚ) + 1))).map smoothstep := by
    apply List.mem_map.mpr
    refine ⟨1, ?_, by unfold smoothstep; norm_num⟩
    apply List.mem_map.mpr
    refine ⟨m + 1, List.mem_range.mpr (by omega), ?_⟩
    push_cast
    exact div_self (ne_of_gt hdpos)
  have hspos : (0 : ℚ) < sumQ (((List.range (m + 2)).map
      (fun i : ℕ => (i : ℚ) / ((m : ℚ) + 1))).map smoothstep) := by
    rw [sumQ_eq_sum]
    have h1 := List.single_le_sum hnn 1 hmem1
    linarith
  have hlast : optMap (fun v => jsDiv v (sumQ (((List.range (m + 2)).map
        (fun i : ℕ => (i : ℚ) / ((m : ℚ) + 1))).map smoothstep)))
      (((List.range (m + 2)).map (fun i : ℕ => (i : ℚ) / ((m : ℚ) + 1))).map smoothstep)
      = some ((((List.range (m + 2)).map (fun i : ℕ => (i : ℚ) / ((m : ℚ) + 1))).map
          smoothstep).map (fun v => v / sumQ (((List.range (m + 2)).map
            (fun i : ℕ => (i : ℚ) / ((m : ℚ) + 1))).map smoothstep))) := by
    apply optMap_eq_map
    intro a _
    unfold jsDiv
    rw [if_neg (ne_of_gt hspos)]
  have hrange : List.range (m + 2) = 0 :: (List.range (m + 1)).map Nat.succ :=
    List.range_succ_eq_map (m + 1)
  have hprofc : ((List.range (m + 2)).map
        (fun i : ℕ => (i : ℚ) / ((m : ℚ) + 1))).map smoothstep
      = 0 :: ((((List.range (m + 1)).map Nat.succ).map
          (fun i : ℕ => (i : ℚ) / ((m : ℚ) + 1))).map smoothstep) := by
    rw [hrange]
    simp only [List.map_cons, Nat.cast_zero, zero_div]
    rw [show smoothstep 0 = 0 by unfold smoothstep; norm_num]
  have hfull : generateSCurveProfile (m + 2)
      = some (((((List.range (m + 2)).map (fun i : ℕ => (i : ℚ) / ((m : ℚ) + 1))).map
          smoothstep).map (fun v => v / sumQ (((List.range (m + 2)).map
            (fun i : ℕ => (i : ℚ) / ((m : ℚ) + 1))).map smoothstep)))) := by
    unfold generateSCurveProfile
    rw [hfirst]
    exact hlast
  refine ⟨((((List.range (m + 1)).map Nat.succ).map
      (fun i : ℕ => (i : ℚ) / ((m : ℚ) + 1))).map smoothstep).map
        (fun v => v / sumQ (((List.range (m + 2)).map
          (fun i : ℕ => (i : ℚ) / ((m : ℚ) + 1))).map smoothstep)), ?_⟩
  rw [hfull]
  rw [hprofc]
  simp only [List.map_cons, zero_div]

/-- C10: for every working-day count N at least 2 that is outside the
precomputed profile set, the generated smoothstep profile starts with a
share of exactly 0, so the first day of the distribution is 0 points for
every total; and for N = 1 the generator divides by zero (t = i/(N-1))
and produces no well-defined profile (NaN, modelled none). -/
theorem c10_generated_first_day_zero (N : ℕ) (T : ℚ) (h2 : 2 ≤ N)
    (htab : sCurveProfileTable N = none) :
    (∃ pr, generateSCurveProfile N = some pr ∧ pr.headD 1 = 0)
    ∧ (∃ d, distributeSCurve T N = some d ∧ d.headD 1 = 0)
    ∧ generateSCurveProfile 1 = none := by
  obtain ⟨m, rfl⟩ : ∃ m, N = m + 2 := ⟨N - 2, by omega⟩
  obtain ⟨rest, hgen⟩ := generateSCurveProfile_head m
  refine ⟨⟨0 :: rest, hgen, rfl⟩, ?_, ?_⟩
  · refine ⟨distributeFromProfile T (m + 2) (0 :: rest), ?_, ?_⟩
    · unfold distributeSCurve
      rw [htab, hgen]
      rfl
    · unfold distributeFromProfile
      simp only [List.map_cons, mul_zero]
      rw [show round2 0 = 0 by unfold round2; rw [show (0 : ℚ) * 100 = ((0 : ℤ) : ℚ) by norm_num, jsRound_intCast]; norm_num]
      obtain ⟨j, hj⟩ : ∃ j, (m + 2) / 2 = j + 1 := ⟨m / 2, by omega⟩
      rw [hj]
      by_cases hc : 1/100 < |round2 (T - sumQ (0 :: List.map (fun p => round2 (T * p)) rest))|
      · rw [if_pos hc, List.set_cons_succ]
        rfl
      · rw [if_neg hc]
        rfl
  · have h00 : jsDiv (0 : ℚ) 0 = none := by
      unfold jsDiv
      rw [if_pos rfl]
    unfold generateSCurveProfile
    rw [show List.range 1 = [0] from rfl]
    simp [optMap, h00, sub_self]

/-- Witness for C10 at N = 4 (not in the precomputed set) and total 50. -/
theorem c10_generated_first_day_zero_witness :
    (∃ pr, generateSCurveProfile 4 = some pr ∧ pr.headD 1 = 0)
    ∧ (∃ d, distributeSCurve 50 4 = some d ∧ d.headD 1 = 0)
    ∧ generateSCurveProfile 1 = none :=
  c10_generated_first_day_zero 4 50 (by norm_num) rfl
